import Mathlib

/-!
Verification of the B2B multi-source data-fusion engine: the taxonomy
classifier, the context aggregator, the structured-field extractor contract,
and the React frontend components (upload handlers, confidence bar, profile
display), shallowly embedded in Lean 4.
-/

namespace B2B

/-! ### Data model: fields and profiles -/

/-- The six recognized extraction field names. -/
inductive FieldName where
  | business_summary
  | product_lines
  | target_industries
  | regions
  | hiring_focus
  | key_recent_events
deriving DecidableEq, Repr

/-- A field value is either a string or a list of strings. -/
inductive FieldValue where
  | str : String → FieldValue
  | list : List String → FieldValue
deriving DecidableEq, Repr

/-- An extraction field: a possibly-null value plus a confidence in [0,1]. -/
structure ExtractionField where
  value : Option FieldValue
  confidence : ℚ
deriving DecidableEq, Repr

/-- The canonical ordering of the six recognized field names. -/
def fieldNames : List FieldName :=
  [FieldName.business_summary, FieldName.product_lines, FieldName.target_industries,
   FieldName.regions, FieldName.hiring_focus, FieldName.key_recent_events]

/-- A company profile: identity, the six-field mapping, creation time. -/
structure CompanyProfile where
  company_id : String
  fields : FieldName → ExtractionField
  created_at : Nat

/-! ### Document pools and the context aggregator -/

/-- The four fragment sources. -/
inductive Source where
  | web
  | product
  | job
  | news
deriving DecidableEq, Repr

/-- A document fragment: text, owning company, source pool, embedding. -/
structure Fragment where
  text : String
  company_id : String
  source : Source
  embedding : List ℚ
deriving DecidableEq, Repr

/-- The four per-source document pools, each in upload order. -/
structure DocumentPools where
  web : List Fragment
  product : List Fragment
  job : List Fragment
  news : List Fragment

/-- The fixed canonical source order used when fusing fragments. -/
def sourceOrder : List Source :=
  [Source.web, Source.product, Source.job, Source.news]

/-- Rank of a source in the canonical order. -/
def sourceRank : Source → Nat
  | Source.web => 0
  | Source.product => 1
  | Source.job => 2
  | Source.news => 3

/-- The pool that belongs to a source. -/
def DocumentPools.pool (ps : DocumentPools) : Source → List Fragment
  | Source.web => ps.web
  | Source.product => ps.product
  | Source.job => ps.job
  | Source.news => ps.news

/-- Modelled from the spec: the Document Pool capability
`query(company_id) -> list<Fragment>` (backend `database/chromadb_setup.py`
is not under src/): the fragments of one pool that carry the requested
company identity, in upload order. -/
def queryPool (ps : DocumentPools) (s : Source) (cid : String) : List Fragment :=
  (ps.pool s).filter (fun f => f.company_id == cid)

/-- Modelled from the spec: `aggregate(company_id)` of the Context Aggregator
(backend `routes/profile_routes.py` is not under src/): queries all four
pools filtered by company identity and concatenates the results grouped by
source in the fixed canonical order web, product, job, news. -/
def aggregate (ps : DocumentPools) (cid : String) : List Fragment :=
  queryPool ps Source.web cid ++ queryPool ps Source.product cid ++
    queryPool ps Source.job cid ++ queryPool ps Source.news cid

/-- Well-formed pools: every fragment sits in the pool of its own source. -/
def PoolsWellFormed (ps : DocumentPools) : Prop :=
  ∀ s : Source, ∀ f ∈ ps.pool s, f.source = s

/-! ### Structured field extractor -/

/-- One field as it appears in the raw model answer, before validation. -/
structure RawField where
  value : Option FieldValue
  confidence : ℚ
deriving DecidableEq, Repr

/-- Clamp a confidence into [0,1]. -/
def clamp01 (c : ℚ) : ℚ := max 0 (min 1 c)

/-- Modelled from the spec: validation of the raw model answer against the
six-field schema (backend `services/llm_service.py` is not under src/): a
field absent from the raw answer becomes `value = null, confidence = 0.0`;
a present field keeps its value and has its confidence clamped into [0,1]. -/
def validateField (raw : List (FieldName × RawField)) (n : FieldName) : ExtractionField :=
  match raw.find? (fun e => e.1 == n) with
  | none => { value := none, confidence := 0 }
  | some e => { value := e.2.value, confidence := clamp01 e.2.confidence }

/-- The fused context string: fragment texts concatenated in order. -/
def contextText (ctx : List Fragment) : String :=
  String.join (ctx.map Fragment.text)

/-- Outcome of an extraction request: a distinct fatal-failure signal, or a
validated profile. -/
inductive ExtractOutcome where
  | failed : ExtractOutcome
  | profile : CompanyProfile → ExtractOutcome

/-- Modelled from the spec: `extract(context) -> Company Profile` (backend
`services/llm_service.py` is not under src/). The reasoning capability plus
JSON parsing is the opaque `answerOf`; a completely unparsable answer
(`none`) is a fatal extraction failure, otherwise every recognized field is
validated against the schema. -/
def extract (answerOf : String → Option (List (FieldName × RawField)))
    (cid : String) (t : Nat) (ctx : List Fragment) : ExtractOutcome :=
  match answerOf (contextText ctx) with
  | none => ExtractOutcome.failed
  | some raw => ExtractOutcome.profile { company_id := cid, fields := validateField raw, created_at := t }

/-- The persisted per-field records of a profile: one (name, value,
confidence) triple for each of the six recognized fields, in canonical
order. -/
def profileFieldRecords (p : CompanyProfile) : List (FieldName × Option FieldValue × ℚ) :=
  fieldNames.map (fun n => (n, (p.fields n).value, (p.fields n).confidence))

/-! ### Taxonomy index and the industry classification matcher -/

/-- The three taxonomy levels. -/
inductive TaxLevel where
  | sector
  | sub_industry
  | industry
deriving DecidableEq, Repr

/-- One row of the taxonomy reference table. -/
structure TaxonomyEntry where
  sector : String
  industry : String
  sub_industry : String
  sic_code : String
  sic_description : String
deriving DecidableEq, Repr

/-- The value a taxonomy row carries at a given level. -/
def levelValue : TaxLevel → TaxonomyEntry → String
  | TaxLevel.sector, e => e.sector
  | TaxLevel.sub_industry, e => e.sub_industry
  | TaxLevel.industry, e => e.industry

/-- Modelled from the spec: the per-level acceptance thresholds of the
matcher (backend `services/industry_matcher.py` is not under src/):
sector 0.65, sub_industry 0.70, industry 0.65. -/
def threshold : TaxLevel → ℚ
  | TaxLevel.sector => 13 / 20
  | TaxLevel.sub_industry => 7 / 10
  | TaxLevel.industry => 13 / 20

/-- Modelled from the spec: the fixed priority order in which the matcher
evaluates the levels: sector, then sub_industry, then industry. -/
def levelOrder : List TaxLevel :=
  [TaxLevel.sector, TaxLevel.sub_industry, TaxLevel.industry]

/-- The taxonomy index: the reference rows in stable order plus, for each
level, the candidate (level value, embedding) list in stable iteration
order. `E` is the opaque embedding-vector type. -/
structure TaxonomyIndex (E : Type) where
  rows : List TaxonomyEntry
  sectorCands : List (String × E)
  subIndustryCands : List (String × E)
  industryCands : List (String × E)

/-- The candidate list of a level. -/
def TaxonomyIndex.cands {E : Type} (idx : TaxonomyIndex E) : TaxLevel → List (String × E)
  | TaxLevel.sector => idx.sectorCands
  | TaxLevel.sub_industry => idx.subIndustryCands
  | TaxLevel.industry => idx.industryCands

/-- Left fold keeping the current best-scored candidate, replacing it only
on a strictly greater score, so the first-encountered maximum wins. -/
def bestAux (b : String × ℚ) : List (String × ℚ) → String × ℚ
  | [] => b
  | c :: rest => bestAux (if b.2 < c.2 then c else b) rest

/-- Modelled from the spec: select the candidate with maximum similarity,
ties broken by the first-encountered candidate in stable iteration order. -/
def bestCandidate : List (String × ℚ) → Option (String × ℚ)
  | [] => none
  | c :: rest => some (bestAux c rest)

/-- Score every candidate of a level against the company embedding with the
similarity function of the embedding capability. -/
def levelScores {E : Type} (sim : E → E → ℚ) (q : E) (cands : List (String × E)) :
    List (String × ℚ) :=
  cands.map (fun c => (c.1, sim q c.2))

/-- Modelled from the spec: the per-level acceptance gate of the matcher:
the best candidate is accepted exactly when its similarity is greater than
or equal to the level's threshold (inclusive lower bound). -/
def acceptAt {E : Type} (sim : E → E → ℚ) (idx : TaxonomyIndex E) (q : E)
    (l : TaxLevel) : Option (String × ℚ) :=
  match bestCandidate (levelScores sim q (idx.cands l)) with
  | none => none
  | some c => if threshold l ≤ c.2 then some c else none

/-- The persisted industry mapping record. -/
structure IndustryMapping where
  matched_level : Option TaxLevel
  sector : Option String
  industry : Option String
  sub_industry : Option String
  sic_code : Option String
  sic_description : Option String
  confidence : ℚ
deriving DecidableEq, Repr

/-- The clean unmatched outcome: no matched level, all classification
fields null, confidence 0.0. -/
def unmatchedMapping : IndustryMapping :=
  { matched_level := none, sector := none, industry := none, sub_industry := none,
    sic_code := none, sic_description := none, confidence := 0 }

/-- Resolve a matched level value back to the first taxonomy row carrying
it, in the index's stable row order. -/
def resolveEntry (rows : List TaxonomyEntry) (l : TaxLevel) (v : String) :
    Option TaxonomyEntry :=
  rows.find? (fun e => levelValue l e == v)

/-- Build the accepted mapping for a matched level value: the resolved row
populates all five classification fields, the winning similarity becomes
the confidence. -/
def mappingOf (rows : List TaxonomyEntry) (l : TaxLevel) (k : String) (s : ℚ) :
    IndustryMapping :=
  match resolveEntry rows l k with
  | some e =>
    { matched_level := some l, sector := some e.sector, industry := some e.industry,
      sub_industry := some e.sub_industry, sic_code := some e.sic_code,
      sic_description := some e.sic_description, confidence := s }
  | none => { unmatchedMapping with matched_level := some l, confidence := s }

/-- Evaluate the levels in order with explicit first-success termination. -/
def classifyLevels {E : Type} (sim : E → E → ℚ) (idx : TaxonomyIndex E) (q : E) :
    List TaxLevel → IndustryMapping
  | [] => unmatchedMapping
  | l :: ls =>
    match acceptAt sim idx q l with
    | some c => mappingOf idx.rows l c.1 c.2
    | none => classifyLevels sim idx q ls

/-- Modelled from the spec: `classify` of the Industry Classification
Matcher (backend `services/industry_matcher.py` is not under src/), applied
to the already-embedded company text `q`: evaluate the levels in the fixed
priority order with threshold gates and stop at the first acceptance. -/
def classify {E : Type} (sim : E → E → ℚ) (idx : TaxonomyIndex E) (q : E) :
    IndustryMapping :=
  classifyLevels sim idx q levelOrder

/-- The text contribution of a field value to the company text. -/
def valueText : Option FieldValue → String
  | none => ""
  | some (FieldValue.str s) => s
  | some (FieldValue.list xs) => String.join xs

/-- Modelled from the spec: the company text is the concatenation of the
business summary, product lines and target industries values, in that
order; missing or null fields contribute nothing. -/
def companyText (p : CompanyProfile) : String :=
  valueText (p.fields FieldName.business_summary).value ++
    valueText (p.fields FieldName.product_lines).value ++
    valueText (p.fields FieldName.target_industries).value

/-- Classification of a whole profile: embed the company text with the
shared embedding capability, then run the matcher. -/
def classifyProfile {E : Type} (embed : String → E) (sim : E → E → ℚ)
    (idx : TaxonomyIndex E) (p : CompanyProfile) : IndustryMapping :=
  classify sim idx (embed (companyText p))

/-! ### Frontend: upload handlers (WebsiteUpload, ProductUpload, JobUpload,
NewsUpload) and the generate-profile handler of App.js -/

/-- One entry appended to a multipart form: a string value or a
possibly-null file handle. -/
inductive FormValue where
  | str : String → FormValue
  | file : Option String → FormValue
deriving DecidableEq, Repr

/-- One HTTP upload request: target endpoint and the form data appended
before the request is issued. -/
structure UploadRequest where
  endpoint : String
  formData : List (String × FormValue)
deriving DecidableEq, Repr

/-- The warning set by every upload handler when the company name is
empty. -/
def companyWarnUpload : String := "⚠️ Please enter company name first"

/-- The warning set by the generate-profile handler when the company name
is empty. -/
def companyWarnGenerate : String := "⚠️ Please enter a company name"

/-- Component state of WebsiteUpload. -/
structure WebsiteUploadState where
  inputType : String
  url : String
  htmlFile : Option String
  loading : Bool
  message : String
deriving DecidableEq, Repr

/-- `handleSubmit` of WebsiteUpload: guard on the company name, then on the
selected input, build the form data, post it and handle the response. The
`respond` argument is the backend; the returned list holds the HTTP
requests the handler issued. -/
def websiteHandleSubmit (companyName : String)
    (respond : UploadRequest → Except String String)
    (st : WebsiteUploadState) : WebsiteUploadState × List UploadRequest :=
  if companyName = "" then ({ st with message := companyWarnUpload }, [])
  else if st.inputType = "url" ∧ st.url = "" then
    ({ st with message := "⚠️ Please enter website URL" }, [])
  else if st.inputType = "file" ∧ st.htmlFile = none then
    ({ st with message := "⚠️ Please select an HTML file" }, [])
  else
    let fd := ("company_name", FormValue.str companyName) ::
      (if st.inputType = "url" then [("url", FormValue.str st.url)]
       else [("html_file", FormValue.file st.htmlFile)])
    let req : UploadRequest := { endpoint := "/website/upload", formData := fd }
    match respond req with
    | Except.ok m =>
      ({ st with url := "", htmlFile := none, message := "✅ " ++ m, loading := false }, [req])
    | Except.error e =>
      ({ st with message := "❌ Error: " ++ e, loading := false }, [req])

/-- Component state of ProductUpload. -/
structure ProductUploadState where
  inputType : String
  pdfFile : Option String
  htmlFile : Option String
  plainText : String
  loading : Bool
  message : String
deriving DecidableEq, Repr

/-- `handleSubmit` of ProductUpload. -/
def productHandleSubmit (companyName : String)
    (respond : UploadRequest → Except String String)
    (st : ProductUploadState) : ProductUploadState × List UploadRequest :=
  if companyName = "" then ({ st with message := companyWarnUpload }, [])
  else
    let extra :=
      if st.inputType = "pdf" ∧ st.pdfFile ≠ none then
        [("pdf_file", FormValue.file st.pdfFile)]
      else if st.inputType = "html" ∧ st.htmlFile ≠ none then
        [("html_file", FormValue.file st.htmlFile)]
      else if st.inputType = "text" then [("plain_text", FormValue.str st.plainText)]
      else []
    let req : UploadRequest :=
      { endpoint := "/product/upload", formData := ("company_name", FormValue.str companyName) :: extra }
    match respond req with
    | Except.ok m =>
      ({ st with pdfFile := none, htmlFile := none, plainText := "",
                 message := "✅ " ++ m, loading := false }, [req])
    | Except.error e =>
      ({ st with message := "❌ Error: " ++ e, loading := false }, [req])

/-- Component state of JobUpload. -/
structure JobUploadState where
  inputType : String
  jobUrl : String
  jobText : String
  htmlFile : Option String
  loading : Bool
  message : String
deriving DecidableEq, Repr

/-- `handleSubmit` of JobUpload. -/
def jobHandleSubmit (companyName : String)
    (respond : UploadRequest → Except String String)
    (st : JobUploadState) : JobUploadState × List UploadRequest :=
  if companyName = "" then ({ st with message := companyWarnUpload }, [])
  else
    let extra :=
      if st.inputType = "url" then [("job_url", FormValue.str st.jobUrl)]
      else if st.inputType = "html" then [("html_file", FormValue.file st.htmlFile)]
      else [("job_text", FormValue.str st.jobText)]
    let req : UploadRequest :=
      { endpoint := "/job/upload", formData := ("company_name", FormValue.str companyName) :: extra }
    match respond req with
    | Except.ok m =>
      ({ st with jobUrl := "", jobText := "", htmlFile := none,
                 message := "✅ " ++ m, loading := false }, [req])
    | Except.error e =>
      ({ st with message := "❌ Error: " ++ e, loading := false }, [req])

/-- Component state of NewsUpload. -/
structure NewsUploadState where
  inputType : String
  newsUrl : String
  newsText : String
  htmlFile : Option String
  loading : Bool
  message : String
deriving DecidableEq, Repr

/-- `handleSubmit` of NewsUpload. -/
def newsHandleSubmit (companyName : String)
    (respond : UploadRequest → Except String String)
    (st : NewsUploadState) : NewsUploadState × List UploadRequest :=
  if companyName = "" then ({ st with message := companyWarnUpload }, [])
  else
    let extra :=
      if st.inputType = "url" then [("news_url", FormValue.str st.newsUrl)]
      else if st.inputType = "html" then [("html_file", FormValue.file st.htmlFile)]
      else [("news_text", FormValue.str st.newsText)]
    let req : UploadRequest :=
      { endpoint := "/news/upload", formData := ("company_name", FormValue.str companyName) :: extra }
    match respond req with
    | Except.ok m =>
      ({ st with newsUrl := "", newsText := "", htmlFile := none,
                 message := "✅ " ++ m, loading := false }, [req])
    | Except.error e =>
      ({ st with message := "❌ Error: " ++ e, loading := false }, [req])

/-- Top-level App state; `P` is the shape of a generated profile result. -/
structure AppState (P : Type) where
  companyName : String
  profile : Option P
  loading : Bool
  message : String
  uploadCount : Nat

/-- `handleGenerateProfile` of App.js: guard on the company name, then post
`/profile/generate` and store the result or the error message. The
returned list holds the company names posted to the backend. -/
def handleGenerateProfile {P : Type} (respond : String → Except String P)
    (st : AppState P) : AppState P × List String :=
  if st.companyName = "" then ({ st with message := companyWarnGenerate }, [])
  else
    match respond st.companyName with
    | Except.ok r =>
      ({ st with loading := false, profile := some r,
                 message := "✅ Unified profile generated successfully!" }, [st.companyName])
    | Except.error e =>
      ({ st with loading := false, profile := none,
                 message := "❌ Error: " ++ e }, [st.companyName])

/-! ### Frontend: ConfidenceBar -/

/-- JavaScript `Math.round` on a rational: round half toward positive
infinity. -/
def jsRound (x : ℚ) : ℤ := Int.floor (x + 1 / 2)

/-- The percentage ConfidenceBar displays: `Math.round(value * 100)`. -/
def percentage (value : ℚ) : ℤ := jsRound (value * 100)

/-- The three confidence levels of ConfidenceBar. -/
inductive ConfLevel where
  | low
  | medium
  | high
deriving DecidableEq, Repr

/-- The level classification of ConfidenceBar: high when the value is at
least 0.75, else medium when at least 0.4, else low. -/
def confLevel (value : ℚ) : ConfLevel :=
  if 3 / 4 ≤ value then ConfLevel.high
  else if 2 / 5 ≤ value then ConfLevel.medium
  else ConfLevel.low

/-- The badge texts ConfidenceBar renders: each of the three is emitted
exactly when the level matches it. -/
def badgeTexts (value : ℚ) : List String :=
  (if confLevel value = ConfLevel.high then ["✓ High Confidence"] else []) ++
    (if confLevel value = ConfLevel.medium then ["~ Medium Confidence"] else []) ++
    (if confLevel value = ConfLevel.low then ["! Low Confidence"] else [])

/-! ### Frontend: ProfileDisplay (the confidence-aware variant) -/

/-- The per-field data ProfileDisplay receives; a field object may be
absent from the payload. -/
structure DisplayProfileData where
  business_summary : Option ExtractionField
  product_lines : Option ExtractionField
  target_industries : Option ExtractionField
  regions : Option ExtractionField
  hiring_focus : Option ExtractionField
  key_recent_events : Option ExtractionField

/-- The profile prop of ProfileDisplay. -/
structure DisplayProfile where
  company_name : String
  profile : DisplayProfileData

/-- What a list-valued field card shows: a list of items, or the no-data
fallback text. -/
inductive FieldView where
  | items : List String → FieldView
  | noData : String → FieldView
deriving DecidableEq, Repr

/-- The JavaScript `.length` of a field value. -/
def valueLength : FieldValue → Nat
  | FieldValue.str s => s.length
  | FieldValue.list xs => xs.length

/-- Render one list-card field: a null value or one failing the
`value.length > 0` check renders the no-data fallback text; a non-empty
list value renders its items; a non-empty string value passes the truthy
length check and then hits `value.map(...)`, which throws a TypeError on a
string, so it is a rendering error. -/
def renderListField (fallbackText : String) (f : ExtractionField) :
    Except Unit (ℚ × FieldView) :=
  match f.value with
  | none => Except.ok (f.confidence, FieldView.noData fallbackText)
  | some v =>
    if 0 < valueLength v then
      match v with
      | FieldValue.list xs => Except.ok (f.confidence, FieldView.items xs)
      | FieldValue.str _ => Except.error ()
    else Except.ok (f.confidence, FieldView.noData fallbackText)

/-- A field whose present value is a list (the only shape the list cards
can `.map` over without throwing). -/
def listShaped (f : ExtractionField) : Prop :=
  ∀ v, f.value = some v → ∃ xs, v = FieldValue.list xs

/-- Render the business-summary card: the value text, or the fallback when
the value is null or the empty string. -/
def renderSummary (f : ExtractionField) : ℚ × String :=
  (f.confidence,
    match f.value with
    | none => "No summary available"
    | some (FieldValue.str s) => if s = "" then "No summary available" else s
    | some (FieldValue.list xs) => String.join xs)

/-- The fully rendered profile view. -/
structure RenderedProfile where
  title : String
  business_summary : ℚ × String
  product_lines : ℚ × FieldView
  target_industries : ℚ × FieldView
  regions : ℚ × FieldView
  hiring_focus : ℚ × FieldView
  key_recent_events : ℚ × FieldView
deriving DecidableEq, Repr

/-- ProfileDisplay: returns null (`ok none`) when the profile prop is null
or absent; otherwise dereferences the confidence of each of the six field
objects unconditionally, so a missing field object is a rendering error
(`error`), and any list card whose `.map` throws propagates as a rendering
error too. -/
def profileDisplay (p : Option DisplayProfile) : Except Unit (Option RenderedProfile) :=
  match p with
  | none => Except.ok none
  | some pr =>
    match pr.profile.business_summary, pr.profile.product_lines,
          pr.profile.target_industries, pr.profile.regions,
          pr.profile.hiring_focus, pr.profile.key_recent_events with
    | some bs, some pl, some ti, some rg, some hf, some ke =>
      match renderListField "No product data" pl,
            renderListField "No industry data" ti,
            renderListField "No region data" rg,
            renderListField "No hiring data available" hf,
            renderListField "No recent events" ke with
      | Except.ok vpl, Except.ok vti, Except.ok vrg, Except.ok vhf, Except.ok vke =>
        Except.ok (some
          { title := "🎯 Unified Company Profile: " ++ pr.company_name,
            business_summary := renderSummary bs,
            product_lines := vpl,
            target_industries := vti,
            regions := vrg,
            hiring_focus := vhf,
            key_recent_events := vke })
      | _, _, _, _, _ => Except.error ()
    | _, _, _, _, _, _ => Except.error ()

/-! ### Helper lemmas -/

lemma clamp01_nonneg (c : ℚ) : 0 ≤ clamp01 c := le_max_left 0 (min 1 c)

lemma clamp01_le_one (c : ℚ) : clamp01 c ≤ 1 :=
  max_le (by norm_num) (min_le_left 1 c)

lemma clamp01_of_mem (c : ℚ) (h0 : 0 ≤ c) (h1 : c ≤ 1) : clamp01 c = c := by
  unfold clamp01
  rw [min_eq_right h1, max_eq_right h0]

lemma validateField_confidence_nonneg (raw : List (FieldName × RawField)) (n : FieldName) :
    0 ≤ (validateField raw n).confidence := by
  unfold validateField
  cases raw.find? (fun e => e.1 == n) with
  | none => simp
  | some e => simpa using clamp01_nonneg e.2.confidence

lemma validateField_confidence_le_one (raw : List (FieldName × RawField)) (n : FieldName) :
    (validateField raw n).confidence ≤ 1 := by
  unfold validateField
  cases raw.find? (fun e => e.1 == n) with
  | none => simp
  | some e => simpa using clamp01_le_one e.2.confidence

lemma mappingOf_matched_level (rows : List TaxonomyEntry) (l : TaxLevel) (k : String) (s : ℚ) :
    (mappingOf rows l k s).matched_level = some l := by
  unfold mappingOf
  cases resolveEntry rows l k <;> rfl

lemma mappingOf_confidence (rows : List TaxonomyEntry) (l : TaxLevel) (k : String) (s : ℚ) :
    (mappingOf rows l k s).confidence = s := by
  unfold mappingOf
  cases resolveEntry rows l k <;> rfl

lemma acceptAt_congr {E : Type} (sim : E → E → ℚ) (q : E) (l : TaxLevel)
    (idx₁ idx₂ : TaxonomyIndex E) (h : idx₁.cands l = idx₂.cands l) :
    acceptAt sim idx₁ q l = acceptAt sim idx₂ q l := by
  unfold acceptAt
  rw [h]

lemma bestAux_spec (l : List (String × ℚ)) :
    ∀ b : String × ℚ,
      (∀ p ∈ b :: l, p.2 ≤ (bestAux b l).2) ∧
        ∃ pre post, b :: l = pre ++ bestAux b l :: post ∧ ∀ p ∈ pre, p.2 < (bestAux b l).2 := by
  induction l with
  | nil =>
    intro b
    refine ⟨?_, [], [], rfl, by simp⟩
    intro p hp
    simp at hp
    simp [bestAux, hp]
  | cons c rest ih =>
    intro b
    by_cases hbc : b.2 < c.2
    · have hstep : bestAux b (c :: rest) = bestAux c rest := by
        simp [bestAux, hbc]
      obtain ⟨hle, pre, post, hdec, hlt⟩ := ih c
      refine ⟨?_, b :: pre, post, ?_, ?_⟩
      · intro p hp
        rw [hstep]
        rcases List.mem_cons.mp hp with h | h
        · subst h
          exact le_of_lt (lt_of_lt_of_le hbc (hle c (List.mem_cons_self c rest)))
        · exact hle p h
      · rw [hstep, List.cons_append, ← hdec]
      · intro p hp
        rw [hstep]
        rcases List.mem_cons.mp hp with h | h
        · subst h
          exact lt_of_lt_of_le hbc (hle c (List.mem_cons_self c rest))
        · exact hlt p h
    · have hstep : bestAux b (c :: rest) = bestAux b rest := by
        simp [bestAux, hbc]
      obtain ⟨hle, pre, post, hdec, hlt⟩ := ih b
      have hcb : c.2 ≤ b.2 := le_of_not_lt hbc
      have hbr : b.2 ≤ (bestAux b rest).2 := hle b (List.mem_cons_self b rest)
      refine ⟨?_, ?_⟩
      · intro p hp
        rw [hstep]
        rcases List.mem_cons.mp hp with h | h
        · subst h
          exact hbr
        · rcases List.mem_cons.mp h with h2 | h2
          · subst h2
            exact le_trans hcb hbr
          · exact hle p (List.mem_cons_of_mem b h2)
      · rw [hstep]
        cases pre with
        | nil =>
          simp only [List.nil_append] at hdec
          injection hdec with hb hrest
          refine ⟨[], c :: post, ?_, by simp⟩
          rw [List.nil_append, ← hb, hrest]
        | cons x pre₂ =>
          simp only [List.cons_append] at hdec
          injection hdec with hxb hrest₂
          have hblt : b.2 < (bestAux b rest).2 := by
            have hx := hlt x (List.mem_cons_self x pre₂)
            rwa [← hxb] at hx
          refine ⟨b :: c :: pre₂, post, ?_, ?_⟩
          · rw [List.cons_append, List.cons_append, ← hrest₂]
          · intro p hp
            rcases List.mem_cons.mp hp with h | h
            · subst h
              exact hblt
            · rcases List.mem_cons.mp h with h2 | h2
              · subst h2
                exact lt_of_le_of_lt hcb hblt
              · exact hlt p (List.mem_cons_of_mem x h2)

lemma bestCandidate_spec (scores : List (String × ℚ)) (k : String) (s : ℚ)
    (h : bestCandidate scores = some (k, s)) :
    (∀ p ∈ scores, p.2 ≤ s) ∧
      ∃ pre post, scores = pre ++ (k, s) :: post ∧ ∀ p ∈ pre, p.2 < s := by
  cases scores with
  | nil => simp [bestCandidate] at h
  | cons c rest =>
    have hbest : bestAux c rest = (k, s) := by
      simpa [bestCandidate] using h
    obtain ⟨hle, pre, post, hdec, hlt⟩ := bestAux_spec rest c
    rw [hbest] at hdec hlt
    refine ⟨?_, pre, post, hdec, hlt⟩
    intro p hp
    have := hle p hp
    rw [hbest] at this
    exact this

lemma find?_first {α : Type} (p : α → Bool) (l : List α) (a : α)
    (h : l.find? p = some a) :
    p a = true ∧ ∃ pre post, l = pre ++ a :: post ∧ ∀ x ∈ pre, p x = false := by
  induction l with
  | nil => simp [List.find?] at h
  | cons b l ih =>
    by_cases hb : p b
    · have : b = a := by
        rw [List.find?_cons_of_pos _ hb] at h
        exact Option.some.inj h
      subst this
      exact ⟨hb, [], l, rfl, by simp⟩
    · rw [List.find?_cons_of_neg _ hb] at h
      obtain ⟨hpa, pre, post, hdec, hpre⟩ := ih h
      refine ⟨hpa, b :: pre, post, by simp [hdec], ?_⟩
      intro x hx
      rcases List.mem_cons.mp hx with h2 | h2
      · subst h2
        simpa using hb
      · exact hpre x h2

/-! ### Claim theorems -/

/-- Claim C2: at every level of classify, the acceptance test against the
level threshold is an inclusive lower bound: a best candidate whose cosine
similarity equals the threshold exactly is accepted, and acceptance of the
best candidate holds exactly when its similarity is at least the
threshold. -/
theorem acceptAt_threshold_inclusive {E : Type} (sim : E → E → ℚ)
    (idx : TaxonomyIndex E) (q : E) (l : TaxLevel) (k : String) (s : ℚ)
    (hbest : bestCandidate (levelScores sim q (idx.cands l)) = some (k, s)) :
    (s = threshold l → acceptAt sim idx q l = some (k, s)) ∧
      (acceptAt sim idx q l = some (k, s) ↔ threshold l ≤ s) := by
  unfold acceptAt
  rw [hbest]
  constructor
  · intro he
    subst he
    simp
  · by_cases hth : threshold l ≤ s
    · simp [hth]
    · simp [hth]

/-- Witness for C2: a sector candidate scoring exactly 0.65 is accepted. -/
theorem acceptAt_threshold_inclusive_witness :
    acceptAt (fun a b : ℚ => a * b)
      ⟨[], [("Information Technology", 13 / 20)], [], []⟩ (1 : ℚ) TaxLevel.sector =
      some ("Information Technology", 13 / 20) := by
  have h := acceptAt_threshold_inclusive (fun a b : ℚ => a * b)
    ⟨[], [("Information Technology", 13 / 20)], [], []⟩ (1 : ℚ) TaxLevel.sector
    "Information Technology" (13 / 20)
    (by norm_num [bestCandidate, bestAux, levelScores, TaxonomyIndex.cands])
  exact h.1 (by norm_num [threshold])

/-- Claim C1: classify evaluates the levels in the fixed priority order
sector (threshold 0.65), sub_industry (threshold 0.70), industry
(threshold 0.65); acceptance at a level fixes the matched level and the
confidence and makes the result independent of every candidate list at the
lower-priority levels, even when a lower-priority candidate would score
higher. -/
theorem classify_priority_short_circuit {E : Type} (sim : E → E → ℚ)
    (idx : TaxonomyIndex E) (q : E) :
    levelOrder = [TaxLevel.sector, TaxLevel.sub_industry, TaxLevel.industry] ∧
      threshold TaxLevel.sector = 13 / 20 ∧
      threshold TaxLevel.sub_industry = 7 / 10 ∧
      threshold TaxLevel.industry = 13 / 20 ∧
      (∀ (k : String) (s : ℚ), acceptAt sim idx q TaxLevel.sector = some (k, s) →
        (classify sim idx q).matched_level = some TaxLevel.sector ∧
          (classify sim idx q).confidence = s ∧
          ∀ c₁ c₂ : List (String × E),
            classify sim ⟨idx.rows, idx.sectorCands, c₁, c₂⟩ q = classify sim idx q) ∧
      (∀ (k : String) (s : ℚ), acceptAt sim idx q TaxLevel.sector = none →
        acceptAt sim idx q TaxLevel.sub_industry = some (k, s) →
        (classify sim idx q).matched_level = some TaxLevel.sub_industry ∧
          (classify sim idx q).confidence = s ∧
          ∀ c₂ : List (String × E),
            classify sim ⟨idx.rows, idx.sectorCands, idx.subIndustryCands, c₂⟩ q =
              classify sim idx q) := by
  refine ⟨rfl, rfl, rfl, rfl, ?_, ?_⟩
  · intro k s hacc
    have hcl : classify sim idx q = mappingOf idx.rows TaxLevel.sector k s := by
      simp [classify, levelOrder, classifyLevels, hacc]
    refine ⟨by rw [hcl]; exact mappingOf_matched_level idx.rows TaxLevel.sector k s,
            by rw [hcl]; exact mappingOf_confidence idx.rows TaxLevel.sector k s, ?_⟩
    intro c₁ c₂
    have hacc₂ : acceptAt sim ⟨idx.rows, idx.sectorCands, c₁, c₂⟩ q TaxLevel.sector =
        some (k, s) := by
      rw [acceptAt_congr sim q TaxLevel.sector ⟨idx.rows, idx.sectorCands, c₁, c₂⟩ idx rfl]
      exact hacc
    have hcl₂ : classify sim ⟨idx.rows, idx.sectorCands, c₁, c₂⟩ q =
        mappingOf idx.rows TaxLevel.sector k s := by
      simp [classify, levelOrder, classifyLevels, hacc₂]
    rw [hcl₂, hcl]
  · intro k s hs hacc
    have hcl : classify sim idx q = mappingOf idx.rows TaxLevel.sub_industry k s := by
      simp [classify, levelOrder, classifyLevels, hs, hacc]
    refine ⟨by rw [hcl]; exact mappingOf_matched_level idx.rows TaxLevel.sub_industry k s,
            by rw [hcl]; exact mappingOf_confidence idx.rows TaxLevel.sub_industry k s, ?_⟩
    intro c₂
    have hs₂ : acceptAt sim ⟨idx.rows, idx.sectorCands, idx.subIndustryCands, c₂⟩ q
        TaxLevel.sector = none := by
      rw [acceptAt_congr sim q TaxLevel.sector
        ⟨idx.rows, idx.sectorCands, idx.subIndustryCands, c₂⟩ idx rfl]
      exact hs
    have hacc₂ : acceptAt sim ⟨idx.rows, idx.sectorCands, idx.subIndustryCands, c₂⟩ q
        TaxLevel.sub_industry = some (k, s) := by
      rw [acceptAt_congr sim q TaxLevel.sub_industry
        ⟨idx.rows, idx.sectorCands, idx.subIndustryCands, c₂⟩ idx rfl]
      exact hacc
    have hcl₂ : classify sim ⟨idx.rows, idx.sectorCands, idx.subIndustryCands, c₂⟩ q =
        mappingOf idx.rows TaxLevel.sub_industry k s := by
      simp [classify, levelOrder, classifyLevels, hs₂, hacc₂]
    rw [hcl₂, hcl]

/-- Similarity function used by concrete witnesses: scaled dot product on
one-dimensional rational embeddings. -/
def simTimes : ℚ → ℚ → ℚ := fun a b => a * b

/-- Taxonomy rows used by concrete witnesses. -/
def rowsW : List TaxonomyEntry :=
  [{ sector := "Information Technology", industry := "Software Development",
     sub_industry := "Cloud Infrastructure", sic_code := "62012",
     sic_description := "Business and domestic software development" }]

/-- Taxonomy index used by concrete witnesses: the sector best scores 0.70
against query 1, the sub-industry best would score 0.95. -/
def idxW : TaxonomyIndex ℚ :=
  ⟨rowsW, [("Information Technology", 7 / 10)],
    [("Cloud Infrastructure", 19 / 20)], [("Software Development", 4 / 5)]⟩

/-- Witness for C1: the sector best scores 0.70 and is accepted, and the
result is unchanged under arbitrary replacement of the sub-industry and
industry candidates, including a 0.95-scoring sub-industry candidate. -/
theorem classify_priority_short_circuit_witness :
    (classify simTimes idxW 1).matched_level = some TaxLevel.sector ∧
      (classify simTimes idxW 1).confidence = 7 / 10 ∧
      classify simTimes ⟨idxW.rows, idxW.sectorCands, [("Pharmacy Software", 19 / 20)], []⟩ 1 =
        classify simTimes idxW 1 := by
  have h := (classify_priority_short_circuit simTimes idxW 1).2.2.2.2.1
    "Information Technology" (7 / 10)
    (by norm_num [acceptAt, bestCandidate, bestAux, levelScores, TaxonomyIndex.cands,
      idxW, threshold, simTimes])
  exact ⟨h.1, h.2.1, h.2.2 [("Pharmacy Software", 19 / 20)] []⟩

/-- Claim C4: classify is deterministic: a second run on the same inputs
returns the same mapping; the best-candidate selection resolves ties by
the first-encountered candidate in stable iteration order (every earlier
candidate scores strictly less than the winner); and resolving a matched
level value picks the first matching row in the index's stable row
order. -/
theorem classify_deterministic_first_tiebreak {E : Type} (sim : E → E → ℚ)
    (idx : TaxonomyIndex E) (q : E) :
    classify sim idx q = classify sim idx q ∧
      (∀ (scores : List (String × ℚ)) (k : String) (s : ℚ),
        bestCandidate scores = some (k, s) →
        (∀ p ∈ scores, p.2 ≤ s) ∧
          ∃ pre post, scores = pre ++ (k, s) :: post ∧ ∀ p ∈ pre, p.2 < s) ∧
      (∀ (rows : List TaxonomyEntry) (l : TaxLevel) (v : String) (e : TaxonomyEntry),
        resolveEntry rows l v = some e →
        levelValue l e = v ∧
          ∃ pre post, rows = pre ++ e :: post ∧ ∀ r ∈ pre, levelValue l r ≠ v) := by
  refine ⟨rfl, fun scores k s h => bestCandidate_spec scores k s h, ?_⟩
  intro rows l v e h
  obtain ⟨hpa, pre, post, hdec, hpre⟩ := find?_first _ rows e h
  refine ⟨by simpa using hpa, pre, post, hdec, ?_⟩
  intro r hr
  have := hpre r hr
  simpa using this

/-- Witness for C4: on two candidates tied at 0.5 the selection returns the
first-encountered one, bounds every score by the winner, and decomposes
the list with a strictly smaller prefix. -/
theorem classify_deterministic_first_tiebreak_witness :
    classify simTimes idxW 1 = classify simTimes idxW 1 ∧
      ((∀ p ∈ [("Healthcare", (1 : ℚ) / 2), ("Manufacturing", 1 / 2)], p.2 ≤ 1 / 2) ∧
        ∃ pre post,
          [("Healthcare", (1 : ℚ) / 2), ("Manufacturing", 1 / 2)] =
            pre ++ ("Healthcare", (1 : ℚ) / 2) :: post ∧ ∀ p ∈ pre, p.2 < 1 / 2) := by
  have h := classify_deterministic_first_tiebreak simTimes idxW 1
  exact ⟨h.1, h.2.1 [("Healthcare", 1 / 2), ("Manufacturing", 1 / 2)] "Healthcare" (1 / 2)
    (by norm_num [bestCandidate, bestAux])⟩

/-- Claim C3: when no level's best candidate clears its threshold, classify
returns the clean unmatched mapping: matched level none, all five
classification fields null, confidence exactly 0.0 (the best-seen
similarity does not leak into the result); this is an ordinary returned
value, not an error. -/
theorem classify_unmatched_clean {E : Type} (sim : E → E → ℚ)
    (idx : TaxonomyIndex E) (q : E)
    (h : ∀ l : TaxLevel, acceptAt sim idx q l = none) :
    classify sim idx q = unmatchedMapping ∧
      (classify sim idx q).matched_level = none ∧
      (classify sim idx q).sector = none ∧
      (classify sim idx q).industry = none ∧
      (classify sim idx q).sub_industry = none ∧
      (classify sim idx q).sic_code = none ∧
      (classify sim idx q).sic_description = none ∧
      (classify sim idx q).confidence = 0 := by
  have hmain : classify sim idx q = unmatchedMapping := by
    simp [classify, levelOrder, classifyLevels, h]
  rw [hmain]
  exact ⟨rfl, rfl, rfl, rfl, rfl, rfl, rfl, rfl⟩

/-- Witness for C3: sector best 0.50, sub-industry best 0.60, industry best
0.60 all miss their thresholds, so the result is the unmatched mapping. -/
theorem classify_unmatched_clean_witness :
    classify (fun a b : ℚ => a * b)
      ⟨[], [("S", 1 / 2)], [("U", 3 / 5)], [("I", 3 / 5)]⟩ (1 : ℚ) = unmatchedMapping := by
  have h := classify_unmatched_clean (fun a b : ℚ => a * b)
    ⟨[], [("S", 1 / 2)], [("U", 3 / 5)], [("I", 3 / 5)]⟩ (1 : ℚ)
    (by
      intro l
      cases l <;>
        norm_num [acceptAt, bestCandidate, bestAux, levelScores, TaxonomyIndex.cands, threshold])
  exact h.1

/-- Claim C5: every profile the extractor produces persists exactly the six
recognized named fields, in canonical order and without duplicates, each as
a (value, confidence) record whose confidence component is present (and in
[0,1]) even when the value is null, alongside the company identity and the
creation time. -/
theorem extract_profile_shape (answerOf : String → Option (List (FieldName × RawField)))
    (cid : String) (t : Nat) (ctx : List Fragment) (p : CompanyProfile)
    (h : extract answerOf cid t ctx = ExtractOutcome.profile p) :
    (profileFieldRecords p).map Prod.fst = fieldNames ∧
      (profileFieldRecords p).length = 6 ∧
      fieldNames.Nodup ∧
      (∀ n : FieldName,
        (n, (p.fields n).value, (p.fields n).confidence) ∈ profileFieldRecords p) ∧
      (∀ r ∈ profileFieldRecords p, 0 ≤ r.2.2 ∧ r.2.2 ≤ 1) ∧
      p.company_id = cid ∧ p.created_at = t := by
  unfold extract at h
  cases hA : answerOf (contextText ctx) with
  | none =>
    rw [hA] at h
    cases h
  | some raw =>
    rw [hA] at h
    injection h with h₂
    subst h₂
    refine ⟨by rfl,
            by simp [profileFieldRecords, fieldNames],
            by decide, ?_, ?_, rfl, rfl⟩
    · intro n
      exact List.mem_map.mpr ⟨n, by cases n <;> simp [fieldNames], rfl⟩
    · intro r hr
      simp only [profileFieldRecords] at hr
      obtain ⟨n, _, rfl⟩ := List.mem_map.mp hr
      exact ⟨validateField_confidence_nonneg raw n, validateField_confidence_le_one raw n⟩

/-- Raw model answer used by concrete witnesses: only the business summary
is present, with an out-of-range confidence 1.5. -/
def rawW : List (FieldName × RawField) :=
  [(FieldName.business_summary,
    { value := some (FieldValue.str "Builds AI software"), confidence := 3 / 2 })]

/-- Reasoning capability used by concrete witnesses: always parses to
`rawW`. -/
def answerOfW : String → Option (List (FieldName × RawField)) := fun _ => some rawW

/-- The profile `extract` produces from `rawW`. -/
def profileW : CompanyProfile :=
  { company_id := "TechCorp", fields := validateField rawW, created_at := 0 }

/-- Witness for C5: the profile extracted from `rawW` carries exactly the
six canonical fields with in-range confidences. -/
theorem extract_profile_shape_witness :
    (profileFieldRecords profileW).map Prod.fst = fieldNames ∧
      (profileFieldRecords profileW).length = 6 ∧
      fieldNames.Nodup ∧
      (∀ n : FieldName,
        (n, (profileW.fields n).value, (profileW.fields n).confidence) ∈
          profileFieldRecords profileW) ∧
      (∀ r ∈ profileFieldRecords profileW, 0 ≤ r.2.2 ∧ r.2.2 ≤ 1) ∧
      profileW.company_id = "TechCorp" ∧ profileW.created_at = 0 :=
  extract_profile_shape answerOfW "TechCorp" 0 [] profileW rfl

/-- Claim C6: extract validates the raw answer against the six-field
schema: an unparsable answer is the distinct fatal failure signal and never
a profile; a parsable answer yields a profile where an absent field becomes
value null with confidence 0.0, a present field keeps its value with its
confidence clamped into [0,1], and every resulting confidence lies in
[0,1]; the clamp is the identity exactly on in-range confidences. -/
theorem extract_validation (answerOf : String → Option (List (FieldName × RawField)))
    (cid : String) (t : Nat) (ctx : List Fragment) :
    (answerOf (contextText ctx) = none →
      extract answerOf cid t ctx = ExtractOutcome.failed ∧
        ∀ p : CompanyProfile, extract answerOf cid t ctx ≠ ExtractOutcome.profile p) ∧
      (∀ raw, answerOf (contextText ctx) = some raw →
        extract answerOf cid t ctx =
            ExtractOutcome.profile
              { company_id := cid, fields := validateField raw, created_at := t } ∧
          (∀ n : FieldName, (raw.find? fun x => x.1 == n) = none →
            validateField raw n = { value := none, confidence := 0 }) ∧
          (∀ (n : FieldName) (e : FieldName × RawField),
            (raw.find? fun x => x.1 == n) = some e →
            validateField raw n = { value := e.2.value, confidence := clamp01 e.2.confidence }) ∧
          (∀ n : FieldName,
            0 ≤ (validateField raw n).confidence ∧ (validateField raw n).confidence ≤ 1)) ∧
      (∀ c : ℚ, 0 ≤ clamp01 c ∧ clamp01 c ≤ 1 ∧ (0 ≤ c → c ≤ 1 → clamp01 c = c)) := by
  refine ⟨?_, ?_, fun c => ⟨clamp01_nonneg c, clamp01_le_one c, clamp01_of_mem c⟩⟩
  · intro hA
    have he : extract answerOf cid t ctx = ExtractOutcome.failed := by
      simp [extract, hA]
    refine ⟨he, fun p hp => ?_⟩
    rw [he] at hp
    cases hp
  · intro raw hA
    refine ⟨by simp [extract, hA], ?_, ?_,
      fun n => ⟨validateField_confidence_nonneg raw n, validateField_confidence_le_one raw n⟩⟩
    · intro n hfind
      simp [validateField, hfind]
    · intro n e hfind
      simp [validateField, hfind]

/-- Witness for C6: an unparsable answer yields the failure signal; in the
profile extracted from `rawW` the absent regions field defaults to null
with confidence 0.0 and the out-of-range confidence 1.5 is clamped. -/
theorem extract_validation_witness :
    extract (fun _ => none) "TechCorp" 0 [] = ExtractOutcome.failed ∧
      validateField rawW FieldName.regions = { value := none, confidence := 0 } ∧
      (0 : ℚ) ≤ clamp01 (3 / 2) ∧ clamp01 (3 / 2) ≤ 1 := by
  have h₁ := (extract_validation (fun _ => none) "TechCorp" 0 []).1 rfl
  have h₂ := ((extract_validation answerOfW "TechCorp" 0 []).2.1 rawW rfl).2.1
    FieldName.regions rfl
  have h₃ := (extract_validation answerOfW "TechCorp" 0 []).2.2 (3 / 2)
  exact ⟨h₁.1, h₂, h₃.1, h₃.2.1⟩

/-! Helper lemmas for the aggregator -/

lemma queryPool_source (ps : DocumentPools) (cid : String) (hwf : PoolsWellFormed ps)
    (s : Source) : ∀ f ∈ queryPool ps s cid, f.source = s := by
  intro f hf
  exact hwf s f (List.mem_of_mem_filter hf)

lemma filter_source_self {l : List Fragment} {s : Source} (h : ∀ f ∈ l, f.source = s) :
    l.filter (fun f => f.source == s) = l := by
  apply List.filter_eq_self.mpr
  intro a ha
  simp [h a ha]

lemma filter_source_other {l : List Fragment} {s s₂ : Source} (hne : s₂ ≠ s)
    (h : ∀ f ∈ l, f.source = s₂) :
    l.filter (fun f => f.source == s) = [] := by
  apply List.filter_eq_nil_iff.mpr
  intro a ha
  simp [h a ha, hne]

lemma pairwise_rank_block {l : List Fragment} {s : Source} (h : ∀ f ∈ l, f.source = s) :
    l.Pairwise (fun a b => sourceRank a.source ≤ sourceRank b.source) := by
  induction l with
  | nil => exact List.Pairwise.nil
  | cons a l ih =>
    refine List.Pairwise.cons ?_ (ih fun f hf => h f (List.mem_cons_of_mem a hf))
    intro b hb
    rw [h a (List.mem_cons_self a l), h b (List.mem_cons_of_mem a hb)]

/-- Claim C7: aggregate queries all four pools, never fails on empty pools
(when every pool is empty it returns the empty sequence), and returns the
fragments grouped by source in the fixed canonical order web, product,
job, news with upload order preserved within each source: filtering the
result by a source recovers exactly that pool's query result, and source
ranks are monotone along the result. -/
theorem aggregate_order_total (ps : DocumentPools) (cid : String)
    (hwf : PoolsWellFormed ps) :
    (∀ s : Source,
      (aggregate ps cid).filter (fun f => f.source == s) = queryPool ps s cid) ∧
      (aggregate ps cid).Pairwise (fun a b => sourceRank a.source ≤ sourceRank b.source) ∧
      ((∀ s : Source, ps.pool s = []) → aggregate ps cid = []) := by
  have hw := queryPool_source ps cid hwf Source.web
  have hp := queryPool_source ps cid hwf Source.product
  have hj := queryPool_source ps cid hwf Source.job
  have hn := queryPool_source ps cid hwf Source.news
  refine ⟨?_, ?_, ?_⟩
  · intro s
    unfold aggregate
    cases s with
    | web =>
      rw [List.filter_append, List.filter_append, List.filter_append,
        filter_source_self hw, filter_source_other (by decide) hp,
        filter_source_other (by decide) hj, filter_source_other (by decide) hn]
      simp
    | product =>
      rw [List.filter_append, List.filter_append, List.filter_append,
        filter_source_other (by decide) hw, filter_source_self hp,
        filter_source_other (by decide) hj, filter_source_other (by decide) hn]
      simp
    | job =>
      rw [List.filter_append, List.filter_append, List.filter_append,
        filter_source_other (by decide) hw, filter_source_other (by decide) hp,
        filter_source_self hj, filter_source_other (by decide) hn]
      simp
    | news =>
      rw [List.filter_append, List.filter_append, List.filter_append,
        filter_source_other (by decide) hw, filter_source_other (by decide) hp,
        filter_source_other (by decide) hj, filter_source_self hn]
      simp
  · unfold aggregate
    refine List.pairwise_append.mpr
      ⟨List.pairwise_append.mpr
        ⟨List.pairwise_append.mpr ⟨pairwise_rank_block hw, pairwise_rank_block hp, ?_⟩,
          pairwise_rank_block hj, ?_⟩,
        pairwise_rank_block hn, ?_⟩
    · intro a ha b hb
      rw [hw a ha, hp b hb]
      decide
    · intro a ha b hb
      rw [hj b hb]
      rcases List.mem_append.mp ha with h₁ | h₁
      · rw [hw a h₁]
        decide
      · rw [hp a h₁]
        decide
    · intro a ha b hb
      rw [hn b hb]
      rcases List.mem_append.mp ha with h₁ | h₁
      · rcases List.mem_append.mp h₁ with h₂ | h₂
        · rw [hw a h₂]
          decide
        · rw [hp a h₂]
          decide
      · rw [hj a h₁]
        decide
  · intro hempty
    simp [aggregate, queryPool, hempty Source.web, hempty Source.product,
      hempty Source.job, hempty Source.news]

/-- Web fragment used by the aggregator witness. -/
def fragW : Fragment :=
  { text := "TechCorp builds AI solutions", company_id := "TechCorp",
    source := Source.web, embedding := [1] }

/-- News fragment used by the aggregator witness. -/
def fragN : Fragment :=
  { text := "TechCorp announced Series B", company_id := "TechCorp",
    source := Source.news, embedding := [2] }

/-- Pools used by the aggregator witness: two pools empty, two occupied. -/
def poolsW : DocumentPools := { web := [fragW], product := [], job := [], news := [fragN] }

/-- Witness for C7: on pools with empty product and job pools the
aggregation still succeeds, recovers the web pool by filtering, and keeps
the canonical source order. -/
theorem aggregate_order_total_witness :
    ((aggregate poolsW "TechCorp").filter (fun f => f.source == Source.web) =
        queryPool poolsW Source.web "TechCorp") ∧
      (aggregate poolsW "TechCorp").Pairwise
        (fun a b => sourceRank a.source ≤ sourceRank b.source) := by
  have hwf : PoolsWellFormed poolsW := by
    intro s f hf
    cases s with
    | web =>
      have hfw : f = fragW := by simpa [poolsW, DocumentPools.pool] using hf
      rw [hfw]
      rfl
    | product => simp [poolsW, DocumentPools.pool] at hf
    | job => simp [poolsW, DocumentPools.pool] at hf
    | news =>
      have hfn : f = fragN := by simpa [poolsW, DocumentPools.pool] using hf
      rw [hfn]
      rfl
  have h := aggregate_order_total poolsW "TechCorp" hwf
  exact ⟨h.1 Source.web, h.2.1⟩

/-- Claim C8: with an empty company name, every upload handler and the
generate-profile handler set their warning message and return before any
API call: the issued request list is empty and every other state component
is unchanged. -/
theorem empty_company_name_blocks_requests (cn : String)
    (r₁ r₂ r₃ r₄ : UploadRequest → Except String String)
    {P : Type} (r₅ : String → Except String P)
    (ws : WebsiteUploadState) (pu : ProductUploadState) (ju : JobUploadState)
    (nu : NewsUploadState) (ap : AppState P)
    (hc : cn = "") (ha : ap.companyName = "") :
    websiteHandleSubmit cn r₁ ws = ({ ws with message := companyWarnUpload }, []) ∧
      productHandleSubmit cn r₂ pu = ({ pu with message := companyWarnUpload }, []) ∧
      jobHandleSubmit cn r₃ ju = ({ ju with message := companyWarnUpload }, []) ∧
      newsHandleSubmit cn r₄ nu = ({ nu with message := companyWarnUpload }, []) ∧
      handleGenerateProfile r₅ ap = ({ ap with message := companyWarnGenerate }, []) := by
  subst hc
  refine ⟨?_, ?_, ?_, ?_, ?_⟩
  · simp [websiteHandleSubmit]
  · simp [productHandleSubmit]
  · simp [jobHandleSubmit]
  · simp [newsHandleSubmit]
  · simp [handleGenerateProfile, ha]

/-- Witness for C8: concrete component states with an empty company name
issue no request and keep their form fields. -/
theorem empty_company_name_blocks_requests_witness :
    websiteHandleSubmit "" (fun _ => Except.error "down")
        ⟨"url", "https://nvidia.com", none, false, ""⟩ =
      (⟨"url", "https://nvidia.com", none, false, companyWarnUpload⟩, []) ∧
      productHandleSubmit "" (fun _ => Except.error "down")
          ⟨"text", none, none, "flagship product", false, ""⟩ =
        (⟨"text", none, none, "flagship product", false, companyWarnUpload⟩, []) ∧
      jobHandleSubmit "" (fun _ => Except.error "down")
          ⟨"text", "", "Hiring engineers", none, false, ""⟩ =
        (⟨"text", "", "Hiring engineers", none, false, companyWarnUpload⟩, []) ∧
      newsHandleSubmit "" (fun _ => Except.error "down")
          ⟨"text", "", "Series B", none, false, ""⟩ =
        (⟨"text", "", "Series B", none, false, companyWarnUpload⟩, []) ∧
      handleGenerateProfile (fun _ => Except.error "down")
          (⟨"", none, false, "", 0⟩ : AppState Nat) =
        ((⟨"", none, false, companyWarnGenerate, 0⟩ : AppState Nat), []) := by
  exact empty_company_name_blocks_requests "" (fun _ => Except.error "down")
    (fun _ => Except.error "down") (fun _ => Except.error "down")
    (fun _ => Except.error "down") (fun _ => Except.error "down")
    ⟨"url", "https://nvidia.com", none, false, ""⟩
    ⟨"text", none, none, "flagship product", false, ""⟩
    ⟨"text", "", "Hiring engineers", none, false, ""⟩
    ⟨"text", "", "Series B", none, false, ""⟩
    ⟨"", none, false, "", 0⟩ rfl rfl

/-- Claim C9: ConfidenceBar displays the percentage `Math.round(v * 100)`
and classifies: high exactly when v is at least 0.75, medium exactly when
0.4 is at most v and v is below 0.75, low exactly when v is below 0.4;
exactly one badge is rendered, and for v in [0,1] the percentage lies in
[0,100]. -/
theorem confidenceBar_spec (v : ℚ) :
    percentage v = jsRound (v * 100) ∧
      (confLevel v = ConfLevel.high ↔ 3 / 4 ≤ v) ∧
      (confLevel v = ConfLevel.medium ↔ 2 / 5 ≤ v ∧ v < 3 / 4) ∧
      (confLevel v = ConfLevel.low ↔ v < 2 / 5) ∧
      (badgeTexts v).length = 1 ∧
      (0 ≤ v → v ≤ 1 → 0 ≤ percentage v ∧ percentage v ≤ 100) := by
  have hhigh : confLevel v = ConfLevel.high ↔ 3 / 4 ≤ v := by
    unfold confLevel
    by_cases h₁ : (3 : ℚ) / 4 ≤ v
    · simp [h₁]
    · by_cases h₂ : (2 : ℚ) / 5 ≤ v <;> simp [h₁, h₂]
  have hmed : confLevel v = ConfLevel.medium ↔ 2 / 5 ≤ v ∧ v < 3 / 4 := by
    unfold confLevel
    by_cases h₁ : (3 : ℚ) / 4 ≤ v
    · simp [h₁, not_lt.mpr h₁]
    · by_cases h₂ : (2 : ℚ) / 5 ≤ v
      · simp [h₁, h₂, not_le.mp h₁]
      · simp [h₁, h₂]
  have hlow : confLevel v = ConfLevel.low ↔ v < 2 / 5 := by
    unfold confLevel
    by_cases h₁ : (3 : ℚ) / 4 ≤ v
    · have : ¬v < 2 / 5 := not_lt.mpr (le_trans (by norm_num) h₁)
      simp [h₁, this]
    · by_cases h₂ : (2 : ℚ) / 5 ≤ v
      · simp [h₁, h₂, not_lt.mpr h₂]
      · simp [h₁, h₂, not_le.mp h₂]
  have hbadge : (badgeTexts v).length = 1 := by
    unfold badgeTexts
    cases h : confLevel v <;> simp [h]
  refine ⟨rfl, hhigh, hmed, hlow, hbadge, ?_⟩
  intro h0 h1
  unfold percentage jsRound
  constructor
  · exact Int.le_floor.mpr (by push_cast; linarith)
  · have h2 : Int.floor (v * 100 + 1 / 2) < 101 := Int.floor_lt.mpr (by push_cast; linarith)
    omega

/-- Witness for C9: at v = 0.5 the percentage lies in [0,100] and the level
is medium. -/
theorem confidenceBar_spec_witness :
    (0 : ℚ) ≤ 1 / 2 ∧ (1 / 2 : ℚ) ≤ 1 ∧ 0 ≤ percentage (1 / 2) ∧
      percentage (1 / 2) ≤ 100 ∧ confLevel (1 / 2) = ConfLevel.medium := by
  have h := confidenceBar_spec (1 / 2)
  exact ⟨by norm_num, by norm_num,
    (h.2.2.2.2.2 (by norm_num) (by norm_num)).1,
    (h.2.2.2.2.2 (by norm_num) (by norm_num)).2,
    h.2.2.1.mpr (by norm_num)⟩

lemma renderListField_ok (fb : String) (f : ExtractionField) (h : listShaped f) :
    ∃ out, renderListField fb f = Except.ok out := by
  cases hv : f.value with
  | none =>
    refine ⟨(f.confidence, FieldView.noData fb), ?_⟩
    simp [renderListField, hv]
  | some v =>
    obtain ⟨xs, rfl⟩ := h v hv
    by_cases hlen : 0 < valueLength (FieldValue.list xs)
    · refine ⟨(f.confidence, FieldView.items xs), ?_⟩
      simp [renderListField, hv, hlen]
    · refine ⟨(f.confidence, FieldView.noData fb), ?_⟩
      simp [renderListField, hv, hlen]

lemma listShaped_of_list (xs : List String) (c : ℚ) :
    listShaped ⟨some (FieldValue.list xs), c⟩ := by
  intro v hv
  refine ⟨xs, ?_⟩
  injection hv with h
  exact h.symm

lemma profileDisplay_error_of_missing (pr : DisplayProfile)
    (hmiss : pr.profile.business_summary = none ∨ pr.profile.product_lines = none ∨
      pr.profile.target_industries = none ∨ pr.profile.regions = none ∨
      pr.profile.hiring_focus = none ∨ pr.profile.key_recent_events = none) :
    profileDisplay (some pr) = Except.error () := by
  obtain ⟨cn, ⟨f₁, f₂, f₃, f₄, f₅, f₆⟩⟩ := pr
  cases f₁ <;> cases f₂ <;> cases f₃ <;> cases f₄ <;> cases f₅ <;> cases f₆ <;>
    first
      | rfl
      | exact absurd hmiss (by simp)

/-- Claim C10: ProfileDisplay renders nothing when the profile prop is null
or absent; each field object's confidence is dereferenced unconditionally,
so rendering is well-defined only for profiles carrying all six field
objects (and a profile missing any of them is a rendering error), while a
complete profile whose list-card values are all list-shaped does render;
and a present field whose value is null or an empty list renders the
no-data fallback text instead of a list. -/
theorem profileDisplay_safety :
    profileDisplay none = Except.ok none ∧
      (∀ (pr : DisplayProfile) (bs pl ti rg hf ke : ExtractionField),
        pr.profile = ⟨some bs, some pl, some ti, some rg, some hf, some ke⟩ →
        listShaped pl → listShaped ti → listShaped rg → listShaped hf → listShaped ke →
        ∃ r, profileDisplay (some pr) = Except.ok (some r)) ∧
      (∀ (pr : DisplayProfile) (r : Option RenderedProfile),
        profileDisplay (some pr) = Except.ok r →
        pr.profile.business_summary ≠ none ∧ pr.profile.product_lines ≠ none ∧
          pr.profile.target_industries ≠ none ∧ pr.profile.regions ≠ none ∧
          pr.profile.hiring_focus ≠ none ∧ pr.profile.key_recent_events ≠ none) ∧
      (∀ pr : DisplayProfile,
        pr.profile.business_summary = none ∨ pr.profile.product_lines = none ∨
          pr.profile.target_industries = none ∨ pr.profile.regions = none ∨
          pr.profile.hiring_focus = none ∨ pr.profile.key_recent_events = none →
        profileDisplay (some pr) = Except.error ()) ∧
      (∀ (fb : String) (f : ExtractionField),
        f.value = none ∨ f.value = some (FieldValue.list []) →
        renderListField fb f = Except.ok (f.confidence, FieldView.noData fb)) := by
  refine ⟨rfl, ?_, ?_, ?_, ?_⟩
  · rintro ⟨cn, pd⟩ bs pl ti rg hf ke hpd h₁ h₂ h₃ h₄ h₅
    dsimp at hpd
    subst hpd
    obtain ⟨o₁, ho₁⟩ := renderListField_ok "No product data" pl h₁
    obtain ⟨o₂, ho₂⟩ := renderListField_ok "No industry data" ti h₂
    obtain ⟨o₃, ho₃⟩ := renderListField_ok "No region data" rg h₃
    obtain ⟨o₄, ho₄⟩ := renderListField_ok "No hiring data available" hf h₄
    obtain ⟨o₅, ho₅⟩ := renderListField_ok "No recent events" ke h₅
    refine ⟨⟨"🎯 Unified Company Profile: " ++ cn, renderSummary bs, o₁, o₂, o₃, o₄, o₅⟩, ?_⟩
    simp [profileDisplay, ho₁, ho₂, ho₃, ho₄, ho₅]
  · intro pr r h
    have hcontra : ¬(pr.profile.business_summary = none ∨ pr.profile.product_lines = none ∨
        pr.profile.target_industries = none ∨ pr.profile.regions = none ∨
        pr.profile.hiring_focus = none ∨ pr.profile.key_recent_events = none) := by
      intro hmiss
      rw [profileDisplay_error_of_missing pr hmiss] at h
      exact Except.noConfusion h
    push_neg at hcontra
    exact hcontra
  · exact fun pr hmiss => profileDisplay_error_of_missing pr hmiss
  · rintro fb f (h | h)
    · simp [renderListField, h]
    · simp [renderListField, h, valueLength]

/-- Field object used by the display witness: a non-empty product list. -/
def dispFieldFull : ExtractionField :=
  { value := some (FieldValue.list ["Zoho CRM"]), confidence := 4 / 5 }

/-- Field object used by the display witness: an empty list value. -/
def dispFieldEmpty : ExtractionField :=
  { value := some (FieldValue.list []), confidence := 1 / 5 }

/-- A complete display profile: all six field objects present. -/
def dispProfileW : DisplayProfile :=
  { company_name := "Zoho",
    profile := ⟨some ⟨some (FieldValue.str "Builds software"), 9 / 10⟩, some dispFieldFull,
      some dispFieldEmpty, some dispFieldEmpty, some dispFieldEmpty, some dispFieldEmpty⟩ }

/-- A display profile whose business-summary field object is missing. -/
def dispShortProfile : DisplayProfile :=
  { company_name := "Zoho",
    profile := ⟨none, some dispFieldFull, some dispFieldEmpty, some dispFieldEmpty,
      some dispFieldEmpty, some dispFieldEmpty⟩ }

/-- Witness for C10: the null profile renders nothing, the complete profile
with list-shaped card values renders, the profile with a missing field
object errors, and an empty-list field renders the fallback text. -/
theorem profileDisplay_safety_witness :
    profileDisplay none = Except.ok none ∧
      (∃ r, profileDisplay (some dispProfileW) = Except.ok (some r)) ∧
      profileDisplay (some dispShortProfile) = Except.error () ∧
      renderListField "No product data" dispFieldEmpty =
        Except.ok (dispFieldEmpty.confidence, FieldView.noData "No product data") := by
  have h := profileDisplay_safety
  exact ⟨h.1,
    h.2.1 dispProfileW ⟨some (FieldValue.str "Builds software"), 9 / 10⟩ dispFieldFull
      dispFieldEmpty dispFieldEmpty dispFieldEmpty dispFieldEmpty rfl
      (listShaped_of_list ["Zoho CRM"] (4 / 5)) (listShaped_of_list [] (1 / 5))
      (listShaped_of_list [] (1 / 5)) (listShaped_of_list [] (1 / 5))
      (listShaped_of_list [] (1 / 5)),
    h.2.2.2.1 dispShortProfile (Or.inl rfl),
    h.2.2.2.2 "No product data" dispFieldEmpty (Or.inr rfl)⟩

end B2B
